import Mathlib

/- Shallow embedding of src/new_work_orders_to_knack.py: the location-inference
pipeline (nearest-feature matching, street-name frequency voting, block-range
computation, location and engineer-note construction) and the per-work-order
control flow of main. Geometry conversion (arcgis WKT, shapely shapes) and the
shapely distance computation are external library calls; they are abstracted as
an opaque shape type together with a distance function passed as an argument.
The two external services (AGOL queries, Knack record creation) are modelled by
passing each query's result as data. -/

set_option maxRecDepth 4000

/-- Attribute values stored in a feature's attribute mapping: strings, integers,
or null, mirroring the JSON-ish values carried by arcgis feature attributes. -/
inductive Val where
  | str : String → Val
  | int : Int → Val
  | null : Val
deriving DecidableEq

/-- Rendering of an attribute value inside a Python f-string. -/
def render : Val → String
  | .str s => s
  | .int n => toString n
  | .null => "None"

/-- Python truthiness of an attribute value. -/
def truthy : Val → Bool
  | .str s => !(s == "")
  | .int n => !(n == 0)
  | .null => false

/-- A feature attribute mapping: a Python dict keyed by field name. -/
abbrev AttrMap := List (String × Val)

/-- Dict lookup data.get(k): the value bound to the key, if present. -/
def alookup : AttrMap → String → Option Val
  | [], _ => none
  | (k1, v1) :: rest, k => if k1 = k then some v1 else alookup rest k

/-- Dict assignment data[k] = v: replaces the existing binding in place or
appends a new one, as dict.update does. -/
def setKey : AttrMap → String → Val → AttrMap
  | [], k, v => [(k, v)]
  | (k1, v1) :: rest, k, v =>
      if k1 = k then (k, v) :: rest else (k1, v1) :: setKey rest k v

/-- Python exceptions raised by the modelled code paths. -/
inductive PyErr where
  | keyError : String → PyErr
  | valueError : String → PyErr
  | attributeError : String → PyErr
  | indexError : String → PyErr
deriving DecidableEq

deriving instance DecidableEq for Except

/-- Dict subscript access data[k]: raises KeyError when the key is absent. -/
def getAttr (data : AttrMap) (k : String) : Except PyErr Val :=
  match alookup data k with
  | some v => .ok v
  | none => .error (.keyError k)

/-- A geospatial feature as consumed by find_nearest_feature: the shape obtained
from its geometry, plus the spatial reference id all compared features must
share. -/
structure GeoFeature (Shape : Type) where
  shape : Shape
  sr : Int
deriving DecidableEq

/-- Loop of find_nearest_feature: walks the search features keeping the current
nearest feature and shortest distance, updating them only when a strictly
smaller distance is found; distance_shortest starts at math.inf (⊤). -/
def find_nearest_go {β Shape : Type} (dist : Shape → Shape → ℚ) (shapeOf : β → Shape)
    (input_shape : Shape) : List β → Option β × WithTop ℚ → Option β × WithTop ℚ
  | [], acc => acc
  | sf :: rest, acc =>
      let d : WithTop ℚ := ((dist input_shape (shapeOf sf) : ℚ) : WithTop ℚ)
      find_nearest_go dist shapeOf input_shape rest (if d < acc.2 then (some sf, d) else acc)

/-- find_nearest_feature(input_feature, search_features): the nearest search
feature and its distance from the input feature, or (None, math.inf) when the
search list is empty. The shapeA/shapeB projections model the conversion of
each feature's geometry to a shapely shape; dist models shapely's distance. -/
def find_nearest_feature {α β Shape : Type} (dist : Shape → Shape → ℚ)
    (shapeA : α → Shape) (shapeB : β → Shape)
    (input_feature : α) (search_features : List β) : Option β × WithTop ℚ :=
  find_nearest_go dist shapeB (shapeA input_feature) search_features (none, ⊤)

/-- Accumulator loop collecting the distinct names of a list in first-occurrence
order, which is the key order of a Python dict and of collections.Counter. -/
def fok_go : List String → List String → List String
  | acc, [] => acc
  | acc, n :: rest => fok_go (if n ∈ acc then acc else acc ++ [n]) rest

/-- Distinct names of a list, in first-occurrence order. -/
def first_occ_keys (names : List String) : List String := fok_go [] names

/-- Distinct names in first-occurrence order, presented by the recursion that
peels the first name and drops its later duplicates; proved equal to
first_occ_keys below and used to reason about Counter key order. -/
def fokF : List String → List String
  | [] => []
  | n :: rest => n :: fokF (rest.filter (fun m => !(m == n)))
termination_by l => l.length
decreasing_by simp only [List.length_cons]; exact Nat.lt_succ_of_le (List.length_filter_le _ _)

/-- Model of collections.Counter(names).items(): one (name, count) pair per
distinct name, in first-occurrence (insertion) order. -/
def counter (names : List String) : List (String × Nat) :=
  (first_occ_keys names).map (fun k => (k, names.count k))

/-- Loop of Python max(items, key=operator.itemgetter(1)): keeps the current
best item, replacing it only when a strictly greater count appears, so the
first item attaining the maximum wins. -/
def py_max_go : String × Nat → List (String × Nat) → String × Nat
  | best, [] => best
  | best, y :: rest => py_max_go (if best.2 < y.2 then y else best) rest

/-- max(items, key=operator.itemgetter(1)); none models the ValueError Python
max raises on an empty sequence. -/
def py_max_by_count : List (String × Nat) → Option (String × Nat)
  | [] => none
  | x :: rest => some (py_max_go x rest)

/-- most_common_name computed in WorkOrder.construct_location, i.e.
max(collections.Counter(street_names).items(), key=operator.itemgetter(1))[0]. -/
def most_common_name (names : List String) : Option String :=
  (py_max_by_count (counter names)).map Prod.fst

/-- Index of the first occurrence of a name in a list (list length if absent);
used to state the first-in-sign-order tie-break. -/
def idxOf : List String → String → Nat
  | [], _ => 0
  | x :: rest, k => if x = k then 0 else idxOf rest k + 1

/-- A street segment feature: its shape plus the attributes the pipeline reads
(FULL_STREET_NAME, LEFT_BLOCK_FROM, LEFT_BLOCK_TO, SEGMENT_ID). -/
structure Segment (Shape : Type) where
  shape : Shape
  full_street_name : String
  left_block_from : Int
  left_block_to : Int
  segment_id : Int
deriving DecidableEq

/-- block_range(segments): the minimum LEFT_BLOCK_FROM rounded down and the
maximum LEFT_BLOCK_TO rounded up to the nearest multiple of 100; none models
the ValueError Python's min raises on an empty list. For an integer x,
math.floor(x / 100) is the floor division x / 100 (Int division here is
Euclidean, which floors for the positive divisor 100) and math.ceil(x / 100)
is its negated dual. -/
def block_range {Shape : Type} : List (Segment Shape) → Option (Int × Int)
  | [] => none
  | s :: rest =>
      let blk_start : Int := (rest.map (fun t => t.left_block_from)).foldl min s.left_block_from
      let blk_end : Int := (rest.map (fun t => t.left_block_to)).foldl max s.left_block_to
      some (blk_start / 100 * 100, -(-blk_end / 100) * 100)

/-- Collects a list of optional matched segments; none as soon as one entry is
None, where reading s.attributes on a None match raises AttributeError. -/
def seqOption {α : Type} : List (Option α) → Option (List α)
  | [] => some []
  | none :: _ => none
  | some a :: rest => (seqOption rest).map (fun l => a :: l)

/-- Body of WorkOrder.construct_location: votes on the most common street name
among the signs' nearest segments, computes the block range over the segments
carrying that name, and produces the formatted location string together with
the reference SEGMENT_ID. The error cases model the exceptions the Python code
raises on the degenerate inputs (a None match, an empty name list, an empty
filtered list). -/
def construct_location_result {Shape : Type} (sign_segments : List (Option (Segment Shape))) :
    Except PyErr (String × Int) :=
  match seqOption sign_segments with
  | none => .error (.attributeError "NoneType object has no attribute attributes")
  | some segs =>
    match py_max_by_count (counter (segs.map (fun s => s.full_street_name))) with
    | none => .error (.valueError "max() arg is an empty sequence")
    | some item =>
      let most_common := item.1
      let street_segments_block_range := segs.filter (fun s => s.full_street_name == most_common)
      match block_range street_segments_block_range with
      | none => .error (.valueError "min() arg is an empty sequence")
      | some blk =>
        match street_segments_block_range.head? with
        | none => .error (.indexError "list index out of range")
        | some s0 =>
          let street_segment_id := s0.segment_id
          let location_name :=
            if street_segments_block_range.length = 1 then
              toString blk.1 ++ " BLK " ++ most_common
            else
              toString blk.1 ++ "-" ++ toString blk.2 ++ " " ++ most_common
          .ok (location_name, street_segment_id)

/-- construct_engineer_note(data): renders the note lines (all six source keys
are read up front, raising KeyError on any missing one), then branches on the
INSTRUCTIONS value; REPLACE and INSTALL share one format, REMOVE has a shorter
one, and any other value raises a ValueError naming it. The conditional lines
(comment, custom sign) are included only when their source value is truthy. -/
def construct_engineer_note (data : AttrMap) : Except PyErr String := do
  let action_value ← getAttr data "INSTRUCTIONS"
  let action := "Action: " ++ render action_value ++ "\n"
  let comments_val ← getAttr data "COMMENTS"
  let comments := if truthy comments_val then "Note: " ++ render comments_val ++ "\n" else ""
  let current_val ← getAttr data "CURRENT_SPEED_LIMIT"
  let current_spd := "Speed Limit: " ++ render current_val ++ "\n"
  let future_val ← getAttr data "FUTURE_SPEED_LIMIT"
  let future_spd := "Speed limit: " ++ render future_val ++ "\n"
  let custom_val ← getAttr data "CUSTOM_SIGN"
  let custom_sign := if truthy custom_val then "Custom sign: " ++ render custom_val ++ "\n" else ""
  let sign_type_val ← getAttr data "SIGN_TYPE"
  let sign_type := "Size: " ++ render sign_type_val ++ "\n"
  if action_value = Val.str "REPLACE" ∨ action_value = Val.str "INSTALL" then
    return action ++ future_spd ++ sign_type ++ custom_sign ++ comments
  else if action_value = Val.str "REMOVE" then
    return action ++ current_spd ++ comments
  else
    throw (.valueError ("Unknown INSTRUCTIONS value for sign feature: " ++ render action_value))

/-- A sign point feature: its shape plus its attribute mapping. -/
structure Sign (Shape : Type) where
  shape : Shape
  attributes : AttrMap
deriving DecidableEq

/-- One work order's state as mutated by the enrichment pipeline. -/
structure WorkOrder (Shape : Type) where
  attributes : AttrMap
  geometry : AttrMap
  signs : List (Sign Shape)
  street_segments : List (Segment Shape)
  sign_segments : List (Option (Segment Shape))
deriving DecidableEq

/-- WorkOrder.identify_eng_area: stores the engineer-area query result under
WORK_AREA, null (after a logged warning) when the query found nothing. -/
def WorkOrder.identify_eng_area {Shape : Type} (wo : WorkOrder Shape)
    (query_result : Option Val) : WorkOrder Shape :=
  { wo with attributes := setKey wo.attributes "WORK_AREA" (query_result.getD Val.null) }

/-- WorkOrder.identify_street_segments: stores the intersecting-segments query
result, raising a ValueError naming the work order's OBJECTID when it is
empty. -/
def WorkOrder.identify_street_segments {Shape : Type} (wo : WorkOrder Shape)
    (query_result : List (Segment Shape)) : Except PyErr (WorkOrder Shape) :=
  let wo2 : WorkOrder Shape := { wo with street_segments := query_result }
  if wo2.street_segments.isEmpty then
    match alookup wo2.attributes "OBJECTID" with
    | some oid =>
        .error (.valueError ("No street segments found at work order location: " ++ render oid))
    | none => .error (.keyError "OBJECTID")
  else
    .ok wo2

/-- WorkOrder.identify_nearest_sign_segments: pairs each sign with its nearest
street segment through find_nearest_feature. -/
def WorkOrder.identify_nearest_sign_segments {Shape : Type} (dist : Shape → Shape → ℚ)
    (wo : WorkOrder Shape) : WorkOrder Shape :=
  let nearest := wo.signs.map (fun sign =>
    (find_nearest_feature dist Sign.shape Segment.shape sign wo.street_segments).1)
  { wo with sign_segments := nearest }

/-- WorkOrder.construct_location: computes the location string and reference
segment id and stores them under GENERATED_LOCATION_FROM_API and
LOCATION_STREET_SEGMENT_ID_REFERENCE via attributes.update. -/
def WorkOrder.construct_location {Shape : Type} (wo : WorkOrder Shape) :
    Except PyErr (WorkOrder Shape) := do
  let r ← construct_location_result wo.sign_segments
  let attrs := setKey (setKey wo.attributes "GENERATED_LOCATION_FROM_API" (Val.str r.1)) "LOCATION_STREET_SEGMENT_ID_REFERENCE" (Val.int r.2)
  return { wo with attributes := attrs }

/-- One work-order feature from the initial query together with the results of
the spatial queries issued while processing it (external service calls). -/
structure BatchItem (Shape : Type) where
  attributes : AttrMap
  geometry : AttrMap
  signs_query : List (Sign Shape)
  area_query : Option Val
  segments_query : List (Segment Shape)
deriving DecidableEq

/-- Main processing loop over the queried work orders, through the
location-synthesis step: a work order whose sign query came back empty is
logged and skipped; an exception raised while processing a work order is not
caught anywhere in main, so it aborts the remaining batch. The steps after
construct_location (Knack record creation, AGOL write-backs) are calls to the
external services and are outside this model. -/
def process_batch {Shape : Type} (dist : Shape → Shape → ℚ) :
    List (BatchItem Shape) → Except PyErr (List (WorkOrder Shape))
  | [] => .ok []
  | item :: rest =>
      let wo : WorkOrder Shape :=
        { attributes := item.attributes, geometry := item.geometry,
          signs := item.signs_query, street_segments := [], sign_segments := [] }
      if wo.signs.isEmpty then
        process_batch dist rest
      else do
        let wo1 := wo.identify_eng_area item.area_query
        let wo2 ← wo1.identify_street_segments item.segments_query
        let wo3 := WorkOrder.identify_nearest_sign_segments dist wo2
        let wo4 ← wo3.construct_location
        let results ← process_batch dist rest
        return wo4 :: results

/-- Distance function on integer shapes used to instantiate the generic model
in the concrete checks below. -/
def distW : Int → Int → ℚ := fun a b => ((a - b).natAbs : ℚ)

/-- Degenerate distance function for concrete checks whose shapes carry no
information. -/
def dist0 : Unit → Unit → ℚ := fun _ _ => 0

/-- Concrete input feature for the nearest-feature checks. -/
def t0 : GeoFeature Int := { shape := 0, sr := 4326 }

/-- Concrete search features for the nearest-feature checks. -/
def cs0 : List (GeoFeature Int) :=
  [{ shape := 5, sr := 4326 }, { shape := 3, sr := 4326 }, { shape := -3, sr := 4326 }]

/-- Concrete street segment used in the concrete checks. -/
def segElm : Segment Unit :=
  { shape := (), full_street_name := "ELM ST", left_block_from := 500,
    left_block_to := 650, segment_id := 7 }

/-- Concrete sign attribute data with an unrecognized INSTRUCTIONS value. -/
def dataR : AttrMap :=
  [("INSTRUCTIONS", .str "RELOCATE"), ("COMMENTS", .str ""),
   ("CURRENT_SPEED_LIMIT", .int 30), ("FUTURE_SPEED_LIMIT", .int 25),
   ("CUSTOM_SIGN", .null), ("SIGN_TYPE", .str "R2-1")]

/-- Concrete sign attribute data for a REMOVE sign that is missing the
FUTURE_SPEED_LIMIT key. -/
def dataRem : AttrMap :=
  [("INSTRUCTIONS", .str "REMOVE"), ("COMMENTS", .str "ok"),
   ("CURRENT_SPEED_LIMIT", .int 30), ("CUSTOM_SIGN", .null), ("SIGN_TYPE", .str "R2-1")]

/-- Concrete work-order batch item whose street-segment query returns nothing. -/
def itemA : BatchItem Unit :=
  { attributes := [("OBJECTID", .int 101)], geometry := [],
    signs_query := [{ shape := (), attributes := [] }], area_query := none,
    segments_query := [] }

/-- Concrete work-order batch item that processes through location synthesis. -/
def itemB : BatchItem Unit :=
  { attributes := [("OBJECTID", .int 102)], geometry := [],
    signs_query := [{ shape := (), attributes := [] }],
    area_query := some (.str "NORTH"), segments_query := [segElm] }

/-- Concrete work-order batch item whose sign query returns nothing. -/
def itemEmpty : BatchItem Unit :=
  { attributes := [("OBJECTID", .int 100)], geometry := [], signs_query := [],
    area_query := none, segments_query := [] }

/-- Concrete matched segments realizing the tie between Oak St and Main St
with Oak St occurring first in sign order. -/
def segsOakMain : List (Segment Unit) :=
  [{ shape := (), full_street_name := "Oak St", left_block_from := 100, left_block_to := 199, segment_id := 11 },
   { shape := (), full_street_name := "Main St", left_block_from := 200, left_block_to := 299, segment_id := 12 },
   { shape := (), full_street_name := "Main St", left_block_from := 300, left_block_to := 399, segment_id := 13 },
   { shape := (), full_street_name := "Oak St", left_block_from := 400, left_block_to := 499, segment_id := 14 }]

/-- Concrete work order whose matched segments are the Oak St / Main St list. -/
def woC : WorkOrder Unit :=
  { attributes := [("OBJECTID", .int 55), ("FOO", .str "bar")], geometry := [("rings", .null)],
    signs := [], street_segments := [], sign_segments := segsOakMain.map some }

theorem alookup_setKey (m : AttrMap) (k : String) (v : Val) (k2 : String) :
    alookup (setKey m k v) k2 = if k = k2 then some v else alookup m k2 := by
  induction m with
  | nil =>
      by_cases h : k = k2 <;> simp [setKey, alookup, h]
  | cons kv rest ih =>
      obtain ⟨k1, v1⟩ := kv
      by_cases h1 : k1 = k
      · subst h1
        by_cases h2 : k1 = k2 <;> simp [setKey, alookup, h2]
      · by_cases h2 : k1 = k2
        · subst h2
          have : ¬k = k1 := fun h => h1 h.symm
          simp [setKey, alookup, h1, this]
        · simp [setKey, alookup, h1, h2, ih]

theorem seqOption_map_some {α : Type} (l : List α) : seqOption (l.map some) = some l := by
  induction l with
  | nil => rfl
  | cons a rest ih => simp [seqOption, ih]

theorem foldl_min_spec (l : List Int) : ∀ a : Int,
    l.foldl min a ≤ a ∧ (∀ x ∈ l, l.foldl min a ≤ x) ∧ (l.foldl min a = a ∨ l.foldl min a ∈ l) := by
  induction l with
  | nil => exact fun a => ⟨le_refl a, by simp, Or.inl rfl⟩
  | cons x rest ih =>
      intro a
      obtain ⟨h1, h2, h3⟩ := ih (min a x)
      refine ⟨le_trans h1 (min_le_left a x), ?_, ?_⟩
      · intro y hy
        rcases List.mem_cons.mp hy with hy | hy
        · subst hy
          rw [List.foldl_cons]
          exact le_trans h1 (min_le_right _ _)
        · exact h2 y hy
      · rcases h3 with h3 | h3
        · rcases min_choice a x with hc | hc
          · exact Or.inl (by rw [List.foldl_cons, h3, hc])
          · exact Or.inr (by rw [List.foldl_cons, h3, hc]; exact List.mem_cons_self x rest)
        · exact Or.inr (List.mem_cons_of_mem x h3)

theorem foldl_max_spec (l : List Int) : ∀ a : Int,
    a ≤ l.foldl max a ∧ (∀ x ∈ l, x ≤ l.foldl max a) ∧ (l.foldl max a = a ∨ l.foldl max a ∈ l) := by
  induction l with
  | nil => exact fun a => ⟨le_refl a, by simp, Or.inl rfl⟩
  | cons x rest ih =>
      intro a
      obtain ⟨h1, h2, h3⟩ := ih (max a x)
      refine ⟨le_trans (le_max_left a x) h1, ?_, ?_⟩
      · intro y hy
        rcases List.mem_cons.mp hy with hy | hy
        · subst hy
          rw [List.foldl_cons]
          exact le_trans (le_max_right _ _) h1
        · exact h2 y hy
      · rcases h3 with h3 | h3
        · rcases max_choice a x with hc | hc
          · exact Or.inl (by rw [List.foldl_cons, h3, hc])
          · exact Or.inr (by rw [List.foldl_cons, h3, hc]; exact List.mem_cons_self x rest)
        · exact Or.inr (List.mem_cons_of_mem x h3)

theorem ediv_mul_le_self (a : Int) : a / 100 * 100 ≤ a := by
  have h := Int.ediv_add_emod a 100
  have h2 := Int.emod_nonneg a (by norm_num : (100 : Int) ≠ 0)
  omega

theorem lt_ediv_mul_add (a : Int) : a < a / 100 * 100 + 100 := by
  have h := Int.ediv_add_emod a 100
  have h2 := Int.emod_lt_of_pos a (by norm_num : (0 : Int) < 100)
  omega

/-- C3: for every non-empty segment list, block_range returns (start, end) with
start a multiple of 100 that rounds the minimum LEFT_BLOCK_FROM down (start is
at most the minimum and within 100 below it) and end a multiple of 100 that
rounds the maximum LEFT_BLOCK_TO up (end is at least the maximum and within
100 above it); a single segment with blocks 1210 and 1240 yields (1200, 1300). -/
theorem block_range_spec :
    (∀ (Shape : Type) (segments : List (Segment Shape)), segments ≠ [] →
      ∃ bstart bend, block_range segments = some (bstart, bend)
        ∧ (100 : Int) ∣ bstart ∧ (100 : Int) ∣ bend
        ∧ (∃ mn, mn ∈ segments.map (fun s => s.left_block_from)
            ∧ (∀ s ∈ segments, mn ≤ s.left_block_from)
            ∧ bstart ≤ mn ∧ mn < bstart + 100)
        ∧ (∃ mx, mx ∈ segments.map (fun s => s.left_block_to)
            ∧ (∀ s ∈ segments, s.left_block_to ≤ mx)
            ∧ mx ≤ bend ∧ bend < mx + 100))
    ∧ block_range [({ shape := (), full_street_name := "MAIN ST", left_block_from := 1210, left_block_to := 1240, segment_id := 1 } : Segment Unit)] = some (1200, 1300) := by
  constructor
  · intro Shape segments hne
    match segments with
    | [] => exact absurd rfl hne
    | s :: rest =>
        obtain ⟨hminle, hminall, hminmem⟩ :=
          foldl_min_spec (rest.map (fun t => t.left_block_from)) s.left_block_from
        obtain ⟨hmaxle, hmaxall, hmaxmem⟩ :=
          foldl_max_spec (rest.map (fun t => t.left_block_to)) s.left_block_to
        set mn := (rest.map (fun t => t.left_block_from)).foldl min s.left_block_from with hmn
        set mx := (rest.map (fun t => t.left_block_to)).foldl max s.left_block_to with hmx
        refine ⟨mn / 100 * 100, -(-mx / 100) * 100, rfl, dvd_mul_left 100 (mn / 100),
          (dvd_mul_left 100 (-(-mx / 100))), ⟨mn, ?_, ?_, ediv_mul_le_self mn,
          lt_ediv_mul_add mn⟩, ⟨mx, ?_, ?_, ?_, ?_⟩⟩
        · rcases hminmem with h | h
          · rw [h]; exact List.mem_cons_self _ _
          · exact List.mem_cons_of_mem _ h
        · intro t ht
          rcases List.mem_cons.mp ht with ht | ht
          · rw [ht]; exact hminle
          · exact hminall _ (List.mem_map_of_mem (fun u => u.left_block_from) ht)
        · rcases hmaxmem with h | h
          · rw [h]; exact List.mem_cons_self _ _
          · exact List.mem_cons_of_mem _ h
        · intro t ht
          rcases List.mem_cons.mp ht with ht | ht
          · rw [ht]; exact hmaxle
          · exact hmaxall _ (List.mem_map_of_mem (fun u => u.left_block_to) ht)
        · have h := ediv_mul_le_self (-mx)
          omega
        · have h := lt_ediv_mul_add (-mx)
          omega
  · decide

/-- Concrete instantiation of the block_range specification on a single ELM ST
segment spanning blocks 500 to 650. -/
theorem block_range_spec_witness :
    ([segElm] ≠ []) ∧
    (∃ bstart bend, block_range [segElm] = some (bstart, bend)
      ∧ (100 : Int) ∣ bstart ∧ (100 : Int) ∣ bend
      ∧ (∃ mn, mn ∈ [segElm].map (fun s => s.left_block_from)
          ∧ (∀ s ∈ [segElm], mn ≤ s.left_block_from)
          ∧ bstart ≤ mn ∧ mn < bstart + 100)
      ∧ (∃ mx, mx ∈ [segElm].map (fun s => s.left_block_to)
          ∧ (∀ s ∈ [segElm], s.left_block_to ≤ mx)
          ∧ mx ≤ bend ∧ bend < mx + 100)) :=
  ⟨by decide, block_range_spec.1 Unit [segElm] (by decide)⟩

/-- C5: at the degenerate inputs the spec requires a descriptive failure for —
an empty sign-feature list, or nearest-segment matches that are all None —
the location-synthesis step raises only generic builtin exceptions (ValueError
from max on an empty sequence, AttributeError from attribute access on None)
that name neither the condition nor the work order. -/
theorem construct_location_degenerate_inputs :
    construct_location_result ([] : List (Option (Segment Unit))) =
      .error (.valueError "max() arg is an empty sequence")
    ∧ construct_location_result [(none : Option (Segment Unit))] =
      .error (.attributeError "NoneType object has no attribute attributes") :=
  ⟨rfl, rfl⟩

/-- C8: a work order whose sign query returns no features is skipped without
any error: it contributes nothing to the batch results and processing
continues with the remaining work orders unchanged. -/
theorem batch_skips_work_order_without_signs {Shape : Type} (dist : Shape → Shape → ℚ)
    (item : BatchItem Shape) (rest : List (BatchItem Shape))
    (h : item.signs_query = []) :
    process_batch dist (item :: rest) = process_batch dist rest := by
  simp [process_batch, h]

/-- Concrete instantiation of the signless-skip theorem: a one-item batch whose
work order has no intersecting sign points produces the same result as the
empty batch. -/
theorem batch_skips_work_order_without_signs_witness :
    itemEmpty.signs_query = []
    ∧ process_batch dist0 [itemEmpty] = process_batch dist0 [] :=
  ⟨rfl, batch_skips_work_order_without_signs dist0 itemEmpty [] rfl⟩

/-- C7 (amended): when the street-segment query for a work order with signs
returns no features, processing that work order raises a ValueError whose
message names the work order's OBJECTID; main's loop catches nothing, so the
error terminates the whole batch and later work orders are not processed. -/
theorem batch_aborts_when_no_street_segments {Shape : Type} (dist : Shape → Shape → ℚ)
    (item : BatchItem Shape) (rest : List (BatchItem Shape)) (oid : Val)
    (hsigns : item.signs_query ≠ [])
    (hsegs : item.segments_query = [])
    (hoid : alookup item.attributes "OBJECTID" = some oid) :
    process_batch dist (item :: rest) =
      .error (.valueError ("No street segments found at work order location: " ++ render oid)) := by
  have hlook : alookup (setKey item.attributes "WORK_AREA" (item.area_query.getD Val.null)) "OBJECTID" = some oid := by
    rw [alookup_setKey]
    simp [hoid]
  simp [process_batch, hsigns, WorkOrder.identify_eng_area, WorkOrder.identify_street_segments,
    hsegs, hlook]
  rfl

/-- Counterexample to C7 as stated: in a two-item batch whose first work order
has signs but no intersecting street segments, the raised error aborts the
whole batch — no result list is produced and the second work order, which on
its own processes successfully, is never reached — so the batch does not
continue with the next work order item. -/
theorem batch_no_continue_counterexample :
    process_batch dist0 [itemA, itemB] =
      .error (.valueError "No street segments found at work order location: 101")
    ∧ (process_batch dist0 [itemA, itemB]).toOption = none
    ∧ (process_batch dist0 [itemB]).toOption.isSome = true :=
  ⟨by decide, by decide, by decide⟩

/-- Concrete instantiation of the no-street-segments abort theorem on a
single-item batch. -/
theorem batch_aborts_when_no_street_segments_witness :
    itemA.signs_query ≠ [] ∧ itemA.segments_query = []
    ∧ alookup itemA.attributes "OBJECTID" = some (Val.int 101)
    ∧ process_batch dist0 [itemA] =
        .error (.valueError ("No street segments found at work order location: " ++ render (Val.int 101))) :=
  ⟨by decide, rfl, rfl, batch_aborts_when_no_street_segments dist0 itemA [] (Val.int 101) (by decide) rfl rfl⟩

/-- C6: with all six source keys present, construct_engineer_note recognizes
exactly REPLACE, INSTALL and REMOVE. A REPLACE or INSTALL note is the action
line, the future-speed-limit line and the sign-size line, followed by the
custom-sign line exactly when CUSTOM_SIGN is truthy and the comment line
exactly when COMMENTS is truthy, and never contains the current-speed-limit
line; a REMOVE note is the action line and the current-speed-limit line,
followed by the comment line exactly when truthy, and never the
future-speed-limit or sign-size lines; any other INSTRUCTIONS value yields a
ValueError naming the offending value. -/
theorem construct_engineer_note_spec (data : AttrMap) (ins com cur fut cus sty : Val)
    (hins : alookup data "INSTRUCTIONS" = some ins)
    (hcom : alookup data "COMMENTS" = some com)
    (hcur : alookup data "CURRENT_SPEED_LIMIT" = some cur)
    (hfut : alookup data "FUTURE_SPEED_LIMIT" = some fut)
    (hcus : alookup data "CUSTOM_SIGN" = some cus)
    (hsty : alookup data "SIGN_TYPE" = some sty) :
    construct_engineer_note data =
      if ins = Val.str "REPLACE" ∨ ins = Val.str "INSTALL" then
        .ok (("Action: " ++ render ins ++ "\n") ++ ("Speed limit: " ++ render fut ++ "\n")
          ++ ("Size: " ++ render sty ++ "\n")
          ++ (if truthy cus then "Custom sign: " ++ render cus ++ "\n" else "")
          ++ (if truthy com then "Note: " ++ render com ++ "\n" else ""))
      else if ins = Val.str "REMOVE" then
        .ok (("Action: " ++ render ins ++ "\n") ++ ("Speed Limit: " ++ render cur ++ "\n")
          ++ (if truthy com then "Note: " ++ render com ++ "\n" else ""))
      else
        .error (.valueError ("Unknown INSTRUCTIONS value for sign feature: " ++ render ins)) := by
  simp only [construct_engineer_note, getAttr, hins, hcom, hcur, hfut, hcus, hsty]
  rfl

/-- Concrete instantiation of the engineer-note theorem on a sign carrying the
unrecognized INSTRUCTIONS value RELOCATE, which yields the descriptive
ValueError. -/
theorem construct_engineer_note_spec_witness :
    alookup dataR "INSTRUCTIONS" = some (Val.str "RELOCATE")
    ∧ construct_engineer_note dataR =
        .error (.valueError "Unknown INSTRUCTIONS value for sign feature: RELOCATE") :=
  ⟨rfl, by
    have h := construct_engineer_note_spec dataR (Val.str "RELOCATE") (Val.str "")
      (Val.int 30) (Val.int 25) Val.null (Val.str "R2-1") rfl rfl rfl rfl rfl rfl
    rw [if_neg (by decide), if_neg (by decide)] at h
    exact h⟩

/-- C9: construct_engineer_note reads all five remaining source keys before
branching on INSTRUCTIONS, so for any recognized INSTRUCTIONS value a missing
key among COMMENTS, CURRENT_SPEED_LIMIT, FUTURE_SPEED_LIMIT, CUSTOM_SIGN and
SIGN_TYPE raises a KeyError even when that key's line would not appear in the
produced note. -/
theorem construct_engineer_note_missing_key (data : AttrMap) (ins : Val)
    (hins : alookup data "INSTRUCTIONS" = some ins)
    (hrec : ins = Val.str "REPLACE" ∨ ins = Val.str "INSTALL" ∨ ins = Val.str "REMOVE")
    (hmiss : alookup data "COMMENTS" = none ∨ alookup data "CURRENT_SPEED_LIMIT" = none
      ∨ alookup data "FUTURE_SPEED_LIMIT" = none ∨ alookup data "CUSTOM_SIGN" = none
      ∨ alookup data "SIGN_TYPE" = none) :
    ∃ k, alookup data k = none ∧ construct_engineer_note data = .error (.keyError k) := by
  cases hcom : alookup data "COMMENTS" with
  | none =>
      exact ⟨"COMMENTS", hcom, by simp only [construct_engineer_note, getAttr, hins, hcom]; rfl⟩
  | some com =>
  cases hcur : alookup data "CURRENT_SPEED_LIMIT" with
  | none =>
      exact ⟨"CURRENT_SPEED_LIMIT", hcur,
        by simp only [construct_engineer_note, getAttr, hins, hcom, hcur]; rfl⟩
  | some cur =>
  cases hfut : alookup data "FUTURE_SPEED_LIMIT" with
  | none =>
      exact ⟨"FUTURE_SPEED_LIMIT", hfut,
        by simp only [construct_engineer_note, getAttr, hins, hcom, hcur, hfut]; rfl⟩
  | some fut =>
  cases hcus : alookup data "CUSTOM_SIGN" with
  | none =>
      exact ⟨"CUSTOM_SIGN", hcus,
        by simp only [construct_engineer_note, getAttr, hins, hcom, hcur, hfut, hcus]; rfl⟩
  | some cus =>
  cases hsty : alookup data "SIGN_TYPE" with
  | none =>
      exact ⟨"SIGN_TYPE", hsty,
        by simp only [construct_engineer_note, getAttr, hins, hcom, hcur, hfut, hcus, hsty]; rfl⟩
  | some sty =>
      rw [hcom, hcur, hfut, hcus, hsty] at hmiss
      rcases hmiss with h | h | h | h | h <;> exact absurd h (by simp)

/-- Concrete instantiation of the missing-key theorem: a REMOVE sign missing
FUTURE_SPEED_LIMIT fails with a KeyError although a REMOVE note never uses
that value. -/
theorem construct_engineer_note_missing_key_witness :
    alookup dataRem "INSTRUCTIONS" = some (Val.str "REMOVE")
    ∧ alookup dataRem "FUTURE_SPEED_LIMIT" = none
    ∧ (∃ k, alookup dataRem k = none ∧ construct_engineer_note dataRem = .error (.keyError k)) :=
  ⟨rfl, rfl, construct_engineer_note_missing_key dataRem (Val.str "REMOVE") rfl
    (Or.inr (Or.inr rfl)) (Or.inr (Or.inr (Or.inl rfl)))⟩

theorem find_nearest_go_spec {β Shape : Type} (dist : Shape → Shape → ℚ) (shapeOf : β → Shape)
    (ish : Shape) : ∀ (l : List β) (acc : Option β × WithTop ℚ),
    (find_nearest_go dist shapeOf ish l acc = acc ∧
      ∀ c ∈ l, acc.2 ≤ ((dist ish (shapeOf c) : ℚ) : WithTop ℚ))
    ∨ (∃ i : Fin l.length,
        find_nearest_go dist shapeOf ish l acc =
          (some (l.get i), ((dist ish (shapeOf (l.get i)) : ℚ) : WithTop ℚ))
        ∧ ((dist ish (shapeOf (l.get i)) : ℚ) : WithTop ℚ) < acc.2
        ∧ (∀ j : Fin l.length, dist ish (shapeOf (l.get i)) ≤ dist ish (shapeOf (l.get j)))
        ∧ (∀ j : Fin l.length, (j : ℕ) < (i : ℕ) →
            dist ish (shapeOf (l.get i)) < dist ish (shapeOf (l.get j)))) := by
  intro l
  induction l with
  | nil => exact fun acc => Or.inl ⟨rfl, by simp⟩
  | cons x rest ih =>
      intro acc
      by_cases hd : ((dist ish (shapeOf x) : ℚ) : WithTop ℚ) < acc.2
      · have hstep : find_nearest_go dist shapeOf ish (x :: rest) acc =
            find_nearest_go dist shapeOf ish rest
              (some x, ((dist ish (shapeOf x) : ℚ) : WithTop ℚ)) := by
          rw [find_nearest_go, if_pos hd]
        rcases ih (some x, ((dist ish (shapeOf x) : ℚ) : WithTop ℚ)) with ⟨heq, hall⟩ | ⟨i, heq, hlt, hmax, hfirst⟩
        · refine Or.inr ⟨⟨0, Nat.succ_pos _⟩, by rw [hstep, heq]; rfl, hd, ?_, ?_⟩
          · intro j
            rcases j with ⟨j, hj⟩
            cases j with
            | zero => exact le_refl _
            | succ j =>
                exact WithTop.coe_le_coe.mp
                  (hall (rest.get ⟨j, Nat.lt_of_succ_lt_succ hj⟩)
                    (List.get_mem rest j (Nat.lt_of_succ_lt_succ hj)))
          · intro j hj
            exact absurd hj (Nat.not_lt_zero _)
        · refine Or.inr ⟨⟨i.1 + 1, Nat.succ_lt_succ i.2⟩, by rw [hstep]; exact heq, lt_trans hlt hd, ?_, ?_⟩
          · intro j
            rcases j with ⟨j, hj⟩
            cases j with
            | zero => exact le_of_lt (WithTop.coe_lt_coe.mp hlt)
            | succ j => exact hmax ⟨j, Nat.lt_of_succ_lt_succ hj⟩
          · intro j hj
            rcases j with ⟨j, hjlen⟩
            cases j with
            | zero => exact WithTop.coe_lt_coe.mp hlt
            | succ j => exact hfirst ⟨j, Nat.lt_of_succ_lt_succ hjlen⟩ (Nat.lt_of_succ_lt_succ hj)
      · have hstep : find_nearest_go dist shapeOf ish (x :: rest) acc =
            find_nearest_go dist shapeOf ish rest acc := by
          rw [find_nearest_go, if_neg hd]
        have hd2 : acc.2 ≤ ((dist ish (shapeOf x) : ℚ) : WithTop ℚ) := not_lt.mp hd
        rcases ih acc with ⟨heq, hall⟩ | ⟨i, heq, hlt, hmax, hfirst⟩
        · refine Or.inl ⟨by rw [hstep, heq], ?_⟩
          intro c hc
          rcases List.mem_cons.mp hc with hc | hc
          · rw [hc]; exact hd2
          · exact hall c hc
        · have hxlt : ((dist ish (shapeOf (rest.get i)) : ℚ) : WithTop ℚ) <
              ((dist ish (shapeOf x) : ℚ) : WithTop ℚ) := lt_of_lt_of_le hlt hd2
          refine Or.inr ⟨⟨i.1 + 1, Nat.succ_lt_succ i.2⟩, by rw [hstep]; exact heq, hlt, ?_, ?_⟩
          · intro j
            rcases j with ⟨j, hj⟩
            cases j with
            | zero => exact le_of_lt (WithTop.coe_lt_coe.mp hxlt)
            | succ j => exact hmax ⟨j, Nat.lt_of_succ_lt_succ hj⟩
          · intro j hj
            rcases j with ⟨j, hjlen⟩
            cases j with
            | zero => exact WithTop.coe_lt_coe.mp hxlt
            | succ j => exact hfirst ⟨j, Nat.lt_of_succ_lt_succ hjlen⟩ (Nat.lt_of_succ_lt_succ hj)

/-- C1: for a target feature and search features sharing its spatial reference,
find_nearest_feature on a non-empty search list returns a pair (nearest, d)
with nearest an element of the list, d the distance from the target's shape to
its shape, d at most the distance to every other candidate, and — among
candidates attaining the minimum distance — the earliest-indexed one; on the
empty search list it returns (None, math.inf). -/
theorem find_nearest_feature_spec {Shape : Type} (dist : Shape → Shape → ℚ)
    (t : GeoFeature Shape) (cs : List (GeoFeature Shape)) :
    (cs = [] → find_nearest_feature dist GeoFeature.shape GeoFeature.shape t cs = (none, ⊤))
    ∧ ((∀ c ∈ cs, c.sr = t.sr) → cs ≠ [] →
      ∃ i : Fin cs.length,
        find_nearest_feature dist GeoFeature.shape GeoFeature.shape t cs =
          (some (cs.get i), ((dist t.shape (cs.get i).shape : ℚ) : WithTop ℚ))
        ∧ (∀ c ∈ cs, dist t.shape (cs.get i).shape ≤ dist t.shape c.shape)
        ∧ (∀ j : Fin cs.length, dist t.shape (cs.get j).shape = dist t.shape (cs.get i).shape →
            (i : ℕ) ≤ (j : ℕ))) := by
  constructor
  · intro h; subst h; rfl
  · intro _ hne
    rcases find_nearest_go_spec dist GeoFeature.shape t.shape cs (none, ⊤) with ⟨_, hall⟩ | ⟨i, heq, _, hmax, hfirst⟩
    · exfalso
      match cs, hne with
      | c :: rest, _ =>
          have h := hall c (List.mem_cons_self c rest)
          simp at h
    · refine ⟨i, heq, ?_, ?_⟩
      · intro c hc
        obtain ⟨j, hj⟩ := List.mem_iff_get.mp hc
        rw [← hj]
        exact hmax j
      · intro j heq2
        by_contra hgt
        push_neg at hgt
        exact absurd heq2 (ne_of_gt (hfirst j hgt))

/-- Concrete instantiation of the nearest-feature theorem: three candidate
features at integer positions 5, 3 and -3 with a target at 0, all in spatial
reference 4326. -/
theorem find_nearest_feature_spec_witness :
    (∀ c ∈ cs0, c.sr = t0.sr) ∧ cs0 ≠ []
    ∧ (∃ i : Fin cs0.length,
        find_nearest_feature distW GeoFeature.shape GeoFeature.shape t0 cs0 =
          (some (cs0.get i), ((distW t0.shape (cs0.get i).shape : ℚ) : WithTop ℚ))
        ∧ (∀ c ∈ cs0, distW t0.shape (cs0.get i).shape ≤ distW t0.shape c.shape)
        ∧ (∀ j : Fin cs0.length, distW t0.shape (cs0.get j).shape = distW t0.shape (cs0.get i).shape →
            (i : ℕ) ≤ (j : ℕ))) :=
  ⟨by decide, by decide, (find_nearest_feature_spec distW t0 cs0).2 (by decide) (by decide)⟩


theorem mem_fokF : ∀ (l : List String) (k : String), k ∈ fokF l ↔ k ∈ l := by
  intro l
  induction l using fokF.induct with
  | case1 => intro k; rw [fokF]
  | case2 n rest ih =>
      intro k
      rw [fokF]
      constructor
      · intro hk
        rcases List.mem_cons.mp hk with hk | hk
        · exact hk ▸ List.mem_cons_self _ _
        · have h2 := List.mem_filter.mp ((ih k).mp hk)
          exact List.mem_cons_of_mem _ h2.1
      · intro hk
        rcases List.mem_cons.mp hk with hk | hk
        · exact hk ▸ List.mem_cons_self _ _
        · by_cases hkn : k = n
          · exact hkn ▸ List.mem_cons_self _ _
          · refine List.mem_cons_of_mem _ ((ih k).mpr (List.mem_filter.mpr ⟨hk, ?_⟩))
            simp [hkn]

theorem idxOf_cons_self (rest : List String) (k : String) : idxOf (k :: rest) k = 0 := by
  simp [idxOf]

theorem idxOf_cons_ne (x : String) (rest : List String) (k : String) (h : x ≠ k) :
    idxOf (x :: rest) k = idxOf rest k + 1 := by
  simp [idxOf, h]

theorem idxOf_filter_lt (p : String → Bool) : ∀ (l : List String) (a b : String),
    a ∈ l.filter p → b ∈ l.filter p →
    idxOf (l.filter p) a < idxOf (l.filter p) b → idxOf l a < idxOf l b := by
  intro l
  induction l with
  | nil => intro a b ha _ _; simp at ha
  | cons x t ih =>
      intro a b ha hb hlt
      by_cases hp : p x
      · rw [List.filter_cons_of_pos hp] at ha hb hlt
        by_cases hxa : x = a
        · subst hxa
          rw [idxOf_cons_self] at hlt ⊢
          have hxb : x ≠ b := by
            intro hxb
            rw [hxb, idxOf_cons_self] at hlt
            exact Nat.not_lt_zero _ hlt
          rw [idxOf_cons_ne x t b hxb]
          exact Nat.succ_pos _
        · rw [idxOf_cons_ne x _ a hxa] at hlt
          have hxb : x ≠ b := by
            intro hxb
            rw [hxb, idxOf_cons_self] at hlt
            exact Nat.not_lt_zero _ hlt
          rw [idxOf_cons_ne x _ b hxb] at hlt
          rw [idxOf_cons_ne x t a hxa, idxOf_cons_ne x t b hxb]
          have ha2 : a ∈ t.filter p := by
            rcases List.mem_cons.mp ha with h | h
            · exact absurd h.symm hxa
            · exact h
          have hb2 : b ∈ t.filter p := by
            rcases List.mem_cons.mp hb with h | h
            · exact absurd h.symm hxb
            · exact h
          exact Nat.succ_lt_succ (ih a b ha2 hb2 (Nat.lt_of_succ_lt_succ hlt))
      · rw [List.filter_cons_of_neg hp] at ha hb hlt
        have hxa : x ≠ a := by
          intro hxa
          exact hp (hxa ▸ (List.mem_filter.mp ha).2)
        have hxb : x ≠ b := by
          intro hxb
          exact hp (hxb ▸ (List.mem_filter.mp hb).2)
        rw [idxOf_cons_ne x t a hxa, idxOf_cons_ne x t b hxb]
        exact Nat.succ_lt_succ (ih a b ha hb hlt)

theorem pairwise_idxOf_fokF : ∀ l : List String,
    (fokF l).Pairwise (fun a b => idxOf l a < idxOf l b) := by
  intro l
  induction l using fokF.induct with
  | case1 => rw [fokF]; exact List.Pairwise.nil
  | case2 n rest ih =>
      rw [fokF]
      constructor
      · intro b hb
        have hbf := (mem_fokF _ b).mp hb
        have hb2 := List.mem_filter.mp hbf
        have hbn : n ≠ b := by
          intro h
          rw [← h] at hb2
          simp at hb2
        rw [idxOf_cons_self, idxOf_cons_ne n rest b hbn]
        exact Nat.succ_pos _
      · refine List.Pairwise.imp_of_mem ?_ ih
        intro a b ha hb hlt
        have haf := (mem_fokF _ a).mp ha
        have hbf := (mem_fokF _ b).mp hb
        have ha2 := List.mem_filter.mp haf
        have hb2 := List.mem_filter.mp hbf
        have hna : n ≠ a := by
          intro h
          rw [← h] at ha2
          simp at ha2
        have hnb : n ≠ b := by
          intro h
          rw [← h] at hb2
          simp at hb2
        rw [idxOf_cons_ne n rest a hna, idxOf_cons_ne n rest b hnb]
        exact Nat.succ_lt_succ (idxOf_filter_lt _ rest a b haf hbf hlt)

theorem fok_go_eq_fokF : ∀ (l acc : List String),
    fok_go acc l = acc ++ fokF (l.filter (fun x => decide (x ∉ acc))) := by
  intro l
  induction l with
  | nil =>
      intro acc
      rw [List.filter_nil, fokF, List.append_nil]
      rfl
  | cons n rest ih =>
      intro acc
      by_cases hmem : n ∈ acc
      · have h1 : fok_go acc (n :: rest) = fok_go acc rest := by simp [fok_go, hmem]
        rw [h1, ih, List.filter_cons_of_neg (by simp [hmem])]
      · have h1 : fok_go acc (n :: rest) = fok_go (acc ++ [n]) rest := by simp [fok_go, hmem]
        rw [h1, ih, List.filter_cons_of_pos (by simp [hmem]), fokF, List.filter_filter,
          List.append_assoc, List.singleton_append]
        congr 2
        apply congrArg
        apply List.filter_congr
        intro m _
        by_cases hmn : m = n
        · subst hmn
          simp [List.mem_append]
        · by_cases hma : m ∈ acc <;> simp [List.mem_append, hmn, hma]

theorem py_max_go_spec : ∀ (l : List (String × Nat)) (best : String × Nat),
    (py_max_go best l = best ∧ ∀ y ∈ l, y.2 ≤ best.2)
    ∨ (∃ i : Fin l.length, py_max_go best l = l.get i
        ∧ best.2 < (l.get i).2
        ∧ (∀ j : Fin l.length, (l.get j).2 ≤ (l.get i).2)
        ∧ (∀ j : Fin l.length, (j : ℕ) < (i : ℕ) → (l.get j).2 < (l.get i).2)) := by
  intro l
  induction l with
  | nil => exact fun best => Or.inl ⟨rfl, by simp⟩
  | cons y rest ih =>
      intro best
      by_cases hy : best.2 < y.2
      · have hstep : py_max_go best (y :: rest) = py_max_go y rest := by
          rw [py_max_go, if_pos hy]
        rcases ih y with ⟨heq, hall⟩ | ⟨i, heq, hlt, hmax, hfirst⟩
        · refine Or.inr ⟨⟨0, Nat.succ_pos _⟩, by rw [hstep, heq]; rfl, hy, ?_, ?_⟩
          · intro j
            rcases j with ⟨j, hj⟩
            cases j with
            | zero => exact le_refl _
            | succ j => exact hall _ (List.get_mem rest j (Nat.lt_of_succ_lt_succ hj))
          · intro j hj
            exact absurd hj (Nat.not_lt_zero _)
        · refine Or.inr ⟨⟨i.1 + 1, Nat.succ_lt_succ i.2⟩, by rw [hstep, heq]; rfl, lt_trans hy hlt, ?_, ?_⟩
          · intro j
            rcases j with ⟨j, hj⟩
            cases j with
            | zero => exact le_of_lt hlt
            | succ j => exact hmax ⟨j, Nat.lt_of_succ_lt_succ hj⟩
          · intro j hj
            rcases j with ⟨j, hjlen⟩
            cases j with
            | zero => exact hlt
            | succ j => exact hfirst ⟨j, Nat.lt_of_succ_lt_succ hjlen⟩ (Nat.lt_of_succ_lt_succ hj)
      · have hstep : py_max_go best (y :: rest) = py_max_go best rest := by
          rw [py_max_go, if_neg hy]
        have hy2 : y.2 ≤ best.2 := not_lt.mp hy
        rcases ih best with ⟨heq, hall⟩ | ⟨i, heq, hlt, hmax, hfirst⟩
        · refine Or.inl ⟨by rw [hstep, heq], ?_⟩
          intro c hc
          rcases List.mem_cons.mp hc with hc | hc
          · rw [hc]; exact hy2
          · exact hall c hc
        · have hylt : y.2 < (rest.get i).2 := lt_of_le_of_lt hy2 hlt
          refine Or.inr ⟨⟨i.1 + 1, Nat.succ_lt_succ i.2⟩, by rw [hstep, heq]; rfl, hlt, ?_, ?_⟩
          · intro j
            rcases j with ⟨j, hj⟩
            cases j with
            | zero => exact le_of_lt hylt
            | succ j => exact hmax ⟨j, Nat.lt_of_succ_lt_succ hj⟩
          · intro j hj
            rcases j with ⟨j, hjlen⟩
            cases j with
            | zero => exact hylt
            | succ j => exact hfirst ⟨j, Nat.lt_of_succ_lt_succ hjlen⟩ (Nat.lt_of_succ_lt_succ hj)

theorem py_max_by_count_spec (items : List (String × Nat)) (hne : items ≠ []) :
    ∃ p : Fin items.length, py_max_by_count items = some (items.get p)
      ∧ (∀ q : Fin items.length, (items.get q).2 ≤ (items.get p).2)
      ∧ (∀ q : Fin items.length, (q : ℕ) < (p : ℕ) → (items.get q).2 < (items.get p).2) := by
  match items with
  | [] => exact absurd rfl hne
  | x :: rest =>
      rcases py_max_go_spec rest x with ⟨heq, hall⟩ | ⟨i, heq, hlt, hmax, hfirst⟩
      · refine ⟨⟨0, Nat.succ_pos _⟩, ?_, ?_, ?_⟩
        · show some (py_max_go x rest) = _
          rw [heq]
          rfl
        · intro q
          rcases q with ⟨q, hq⟩
          cases q with
          | zero => exact le_refl _
          | succ q => exact hall _ (List.get_mem rest q (Nat.lt_of_succ_lt_succ hq))
        · intro q hq
          exact absurd hq (Nat.not_lt_zero _)
      · refine ⟨⟨i.1 + 1, Nat.succ_lt_succ i.2⟩, ?_, ?_, ?_⟩
        · show some (py_max_go x rest) = _
          rw [heq]
          rfl
        · intro q
          rcases q with ⟨q, hq⟩
          cases q with
          | zero => exact le_of_lt hlt
          | succ q => exact hmax ⟨q, Nat.lt_of_succ_lt_succ hq⟩
        · intro q hq
          rcases q with ⟨q, hqlen⟩
          cases q with
          | zero => exact hlt
          | succ q => exact hfirst ⟨q, Nat.lt_of_succ_lt_succ hqlen⟩ (Nat.lt_of_succ_lt_succ hq)

theorem mcn_spec (names : List String) (hne : names ≠ []) :
    ∃ m, most_common_name names = some m ∧ m ∈ names
      ∧ (∀ n ∈ names, names.count n ≤ names.count m)
      ∧ (∀ n ∈ names, names.count n = names.count m → idxOf names m ≤ idxOf names n) := by
  have hkeys : first_occ_keys names = fokF names := by
    rw [first_occ_keys, fok_go_eq_fokF, List.nil_append]
    congr 1
    apply List.filter_eq_self.mpr
    intro a _
    simp
  have hmemkeys : ∀ k, (k ∈ first_occ_keys names ↔ k ∈ names) := by
    intro k
    rw [hkeys]
    exact mem_fokF names k
  have hpair : (first_occ_keys names).Pairwise (fun a b => idxOf names a < idxOf names b) := by
    rw [hkeys]
    exact pairwise_idxOf_fokF names
  obtain ⟨a, ha⟩ : ∃ a, a ∈ names := by
    cases names with
    | nil => exact absurd rfl hne
    | cons a r => exact ⟨a, List.mem_cons_self a r⟩
  have hkne : first_occ_keys names ≠ [] := List.ne_nil_of_mem ((hmemkeys a).mpr ha)
  have hcne : counter names ≠ [] := by
    rw [counter]
    intro h
    exact hkne (List.map_eq_nil_iff.mp h)
  obtain ⟨p, hsome, hmaxall, hfirstlt⟩ := py_max_by_count_spec (counter names) hcne
  have hplt : (p : ℕ) < (first_occ_keys names).length := by
    have h := p.2
    simpa [counter] using h
  have hgetp : (counter names).get p =
      ((first_occ_keys names)[(p : ℕ)], names.count ((first_occ_keys names)[(p : ℕ)])) := by
    show ((first_occ_keys names).map (fun k => (k, names.count k))).get p = _
    simp
  refine ⟨(first_occ_keys names)[(p : ℕ)], ?_, ?_, ?_, ?_⟩
  · rw [most_common_name, hsome, hgetp]
    rfl
  · exact (hmemkeys _).mp (List.getElem_mem hplt)
  · intro n hn
    obtain ⟨q, hq, hqe⟩ := List.mem_iff_getElem.mp ((hmemkeys n).mpr hn)
    have hqc : q < (counter names).length := by simpa [counter] using hq
    have hgetq : (counter names).get ⟨q, hqc⟩ = (n, names.count n) := by
      show ((first_occ_keys names).map (fun k => (k, names.count k))).get ⟨q, hqc⟩ = _
      simp [hqe]
    have h := hmaxall ⟨q, hqc⟩
    rw [hgetq, hgetp] at h
    exact h
  · intro n hn hcnt
    obtain ⟨q, hq, hqe⟩ := List.mem_iff_getElem.mp ((hmemkeys n).mpr hn)
    have hqc : q < (counter names).length := by simpa [counter] using hq
    have hgetq : (counter names).get ⟨q, hqc⟩ = (n, names.count n) := by
      show ((first_occ_keys names).map (fun k => (k, names.count k))).get ⟨q, hqc⟩ = _
      simp [hqe]
    rcases Nat.lt_trichotomy q (p : ℕ) with hlt | heqq | hgt
    · have h := hfirstlt ⟨q, hqc⟩ hlt
      rw [hgetq, hgetp] at h
      exact absurd hcnt (ne_of_lt h)
    · subst heqq
      rw [← hqe]
    · have hpg := List.pairwise_iff_getElem.mp hpair (p : ℕ) q hplt hq hgt
      rw [hqe] at hpg
      exact le_of_lt hpg

/-- C2: for every non-empty list of matched street segments, location synthesis
selects a street name that occurs among the segments' FULL_STREET_NAME values,
whose occurrence count is maximal, and which — when several distinct names
attain the maximal count — occurs first in the original sign order; in
particular with counts Oak St = 2 and Main St = 2 and Oak St occurring first,
Oak St is selected. -/
theorem most_common_name_spec :
    (∀ (Shape : Type) (segs : List (Segment Shape)), segs ≠ [] →
      ∃ m, most_common_name (segs.map (fun s => s.full_street_name)) = some m
        ∧ m ∈ segs.map (fun s => s.full_street_name)
        ∧ (∀ n ∈ segs.map (fun s => s.full_street_name),
            (segs.map (fun s => s.full_street_name)).count n ≤
              (segs.map (fun s => s.full_street_name)).count m)
        ∧ (∀ n ∈ segs.map (fun s => s.full_street_name),
            (segs.map (fun s => s.full_street_name)).count n =
              (segs.map (fun s => s.full_street_name)).count m →
            idxOf (segs.map (fun s => s.full_street_name)) m ≤
              idxOf (segs.map (fun s => s.full_street_name)) n))
    ∧ most_common_name ["Oak St", "Main St", "Main St", "Oak St"] = some "Oak St" := by
  constructor
  · intro Shape segs hne
    apply mcn_spec
    intro h
    exact hne (List.map_eq_nil_iff.mp h)
  · decide

/-- Concrete instantiation of the most-common-name theorem on the tied
Oak St / Main St segment list. -/
theorem most_common_name_spec_witness :
    segsOakMain ≠ []
    ∧ (∃ m, most_common_name (segsOakMain.map (fun s => s.full_street_name)) = some m
        ∧ m ∈ segsOakMain.map (fun s => s.full_street_name)
        ∧ (∀ n ∈ segsOakMain.map (fun s => s.full_street_name),
            (segsOakMain.map (fun s => s.full_street_name)).count n ≤
              (segsOakMain.map (fun s => s.full_street_name)).count m)
        ∧ (∀ n ∈ segsOakMain.map (fun s => s.full_street_name),
            (segsOakMain.map (fun s => s.full_street_name)).count n =
              (segsOakMain.map (fun s => s.full_street_name)).count m →
            idxOf (segsOakMain.map (fun s => s.full_street_name)) m ≤
              idxOf (segsOakMain.map (fun s => s.full_street_name)) n)) :=
  ⟨by decide, most_common_name_spec.1 Unit segsOakMain (by decide)⟩

theorem construct_location_result_ok {Shape : Type} (segs : List (Segment Shape)) (hne : segs ≠ []) :
    ∃ name s0 rest2,
      most_common_name (segs.map (fun s => s.full_street_name)) = some name
      ∧ segs.filter (fun s => s.full_street_name == name) = s0 :: rest2
      ∧ ∃ bstart bend, block_range (s0 :: rest2) = some (bstart, bend)
        ∧ construct_location_result (segs.map some) =
            .ok ((if (s0 :: rest2).length = 1
                  then toString bstart ++ " BLK " ++ name
                  else toString bstart ++ "-" ++ toString bend ++ " " ++ name),
                s0.segment_id) := by
  have hnames : segs.map (fun s => s.full_street_name) ≠ [] :=
    fun h => hne (List.map_eq_nil_iff.mp h)
  obtain ⟨m, hm, hmem, _, _⟩ := mcn_spec _ hnames
  obtain ⟨item, hpy, hfst⟩ := Option.map_eq_some'.mp hm
  obtain ⟨m1, c1⟩ := item
  simp only at hfst
  subst hfst
  obtain ⟨s, hs, hsm⟩ := List.mem_map.mp hmem
  have hsf : s ∈ segs.filter (fun t => t.full_street_name == m1) :=
    List.mem_filter.mpr ⟨hs, by simp [hsm]⟩
  obtain ⟨s0, rest2, hsplit⟩ := List.exists_cons_of_ne_nil (List.ne_nil_of_mem hsf)
  refine ⟨m1, s0, rest2, hm, hsplit,
    ((rest2.map (fun t => t.left_block_from)).foldl min s0.left_block_from) / 100 * 100,
    -(-((rest2.map (fun t => t.left_block_to)).foldl max s0.left_block_to) / 100) * 100,
    rfl, ?_⟩
  simp only [construct_location_result, seqOption_map_some, hpy, hsplit, block_range,
    List.head?_cons]

/-- C4: for every non-empty matched-segment list the step succeeds; writing
filtered for the segments whose name equals the selected most common name, the
synthesized location string is "{start} BLK {name}" when filtered has exactly
one segment and "{start}-{end} {name}" otherwise, with (start, end) the block
range of filtered, and the stored reference street-segment identifier is the
SEGMENT_ID of the first element of filtered. -/
theorem construct_location_result_spec :
    ∀ (Shape : Type) (segs : List (Segment Shape)), segs ≠ [] →
    ∃ name s0 rest2,
      most_common_name (segs.map (fun s => s.full_street_name)) = some name
      ∧ segs.filter (fun s => s.full_street_name == name) = s0 :: rest2
      ∧ ∃ bstart bend, block_range (s0 :: rest2) = some (bstart, bend)
        ∧ construct_location_result (segs.map some) =
            .ok ((if (s0 :: rest2).length = 1
                  then toString bstart ++ " BLK " ++ name
                  else toString bstart ++ "-" ++ toString bend ++ " " ++ name),
                s0.segment_id) :=
  fun _ segs hne => construct_location_result_ok segs hne

/-- Concrete instantiation of the location-format theorem on the Oak St /
Main St segment list. -/
theorem construct_location_result_spec_witness :
    segsOakMain ≠ []
    ∧ (∃ name s0 rest2,
        most_common_name (segsOakMain.map (fun s => s.full_street_name)) = some name
        ∧ segsOakMain.filter (fun s => s.full_street_name == name) = s0 :: rest2
        ∧ ∃ bstart bend, block_range (s0 :: rest2) = some (bstart, bend)
          ∧ construct_location_result (segsOakMain.map some) =
              .ok ((if (s0 :: rest2).length = 1
                    then toString bstart ++ " BLK " ++ name
                    else toString bstart ++ "-" ++ toString bend ++ " " ++ name),
                  s0.segment_id)) :=
  ⟨by decide, construct_location_result_spec Unit segsOakMain (by decide)⟩

/-- C10: WorkOrder.construct_location updates only the two keys
GENERATED_LOCATION_FROM_API and LOCATION_STREET_SEGMENT_ID_REFERENCE: for a
work order whose matched-segment list is non-empty with no None entries, the
step succeeds, every other attribute key keeps its previous value, and the
geometry, signs, street segments and matched segments are unchanged. -/
theorem construct_location_frame :
    ∀ (Shape : Type) (wo : WorkOrder Shape) (segs : List (Segment Shape)),
    wo.sign_segments = segs.map some → segs ≠ [] →
    ∃ wo2, wo.construct_location = .ok wo2
      ∧ (∀ k, k ≠ "GENERATED_LOCATION_FROM_API" → k ≠ "LOCATION_STREET_SEGMENT_ID_REFERENCE" →
          alookup wo2.attributes k = alookup wo.attributes k)
      ∧ wo2.geometry = wo.geometry ∧ wo2.signs = wo.signs
      ∧ wo2.street_segments = wo.street_segments ∧ wo2.sign_segments = wo.sign_segments := by
  intro Shape wo segs hss hne
  obtain ⟨name, s0, rest2, hm, hsplit, bstart, bend, hbr, hok⟩ :=
    construct_location_result_ok segs hne
  refine ⟨{ wo with attributes := setKey (setKey wo.attributes "GENERATED_LOCATION_FROM_API" (Val.str (if (s0 :: rest2).length = 1 then toString bstart ++ " BLK " ++ name else toString bstart ++ "-" ++ toString bend ++ " " ++ name))) "LOCATION_STREET_SEGMENT_ID_REFERENCE" (Val.int s0.segment_id) }, ?_, ?_, rfl, rfl, rfl, rfl⟩
  · show WorkOrder.construct_location wo = _
    simp only [WorkOrder.construct_location, hss, hok]
    rfl
  · intro k hk1 hk2
    show alookup (setKey (setKey wo.attributes "GENERATED_LOCATION_FROM_API" _) "LOCATION_STREET_SEGMENT_ID_REFERENCE" _) k = alookup wo.attributes k
    rw [alookup_setKey, alookup_setKey, if_neg (fun h => hk2 h.symm), if_neg (fun h => hk1 h.symm)]

/-- Concrete instantiation of the frame theorem on a work order whose matched
segments are the Oak St / Main St list. -/
theorem construct_location_frame_witness :
    woC.sign_segments = segsOakMain.map some ∧ segsOakMain ≠ []
    ∧ (∃ wo2, woC.construct_location = .ok wo2
        ∧ (∀ k, k ≠ "GENERATED_LOCATION_FROM_API" → k ≠ "LOCATION_STREET_SEGMENT_ID_REFERENCE" →
            alookup wo2.attributes k = alookup woC.attributes k)
        ∧ wo2.geometry = woC.geometry ∧ wo2.signs = woC.signs
        ∧ wo2.street_segments = woC.street_segments ∧ wo2.sign_segments = woC.sign_segments) :=
  ⟨rfl, by decide, construct_location_frame Unit woC segsOakMain rfl (by decide)⟩
